import Mathlib

/-!
Verification of the traceroute topology engine of scripts/analyze_traceroute.py:
the hop parser (parse_traceroute_file), the node classifier (classify_node) and
the topology aggregator (build_network_graph).  Python floats for RTT values are
modelled as exact rationals; Python strings as Lean strings over their character
lists; a Python exception (ValueError escaping from float()) is modelled as the
Option value none; the networkx DiGraph is modelled as an association list of
directed edges keyed by (source, destination), each carrying its ordered list of
traversal records, together with the auxiliary node_info association list kept
by build_network_graph.
-/

namespace Traceroute

/-! ### Character and string helpers (ASCII model of the Python semantics) -/

/-- Boolean test that pattern p is an initial segment of s. -/
def listHasPre : List Char → List Char → Bool
  | [], _ => true
  | _ :: _, [] => false
  | a :: as, b :: bs => a = b && listHasPre as bs

/-- Boolean test that pattern p occurs contiguously inside s
(Python s.find(p) >= 0, i.e. the operator p in s). -/
def listHasSub : List Char → List Char → Bool
  | p, [] => p.isEmpty
  | p, c :: t => listHasPre p (c :: t) || listHasSub p t

/-- Python str.startswith for our ASCII strings. -/
def strStarts (s p : String) : Bool := listHasPre p.toList s.toList

/-- Python str.endswith for our ASCII strings. -/
def strEnds (s p : String) : Bool := listHasPre p.toList.reverse s.toList.reverse

/-- Python substring containment p in s. -/
def strHas (s p : String) : Bool := listHasSub p.toList s.toList

/-- ASCII lower-casing of one character (Python str.lower on ASCII data). -/
def lowerC (c : Char) : Char :=
  if 65 ≤ c.toNat ∧ c.toNat ≤ 90 then Char.ofNat (c.toNat + 32) else c

/-- ASCII lower-casing of a string. -/
def lowerS (s : String) : String := String.mk (s.toList.map lowerC)

/-- Python \s character class restricted to ASCII whitespace. -/
def isWsChar (c : Char) : Bool :=
  c = ' ' || c = '\t' || c = '\n' || c = '\r' || c = '\x0b' || c = '\x0c'

/-- ASCII decimal digit test (Python \d on ASCII data). -/
def isDigitChar (c : Char) : Bool := '0' ≤ c && c ≤ '9'

/-- Character admitted by the regex classes [0-9.] and [\d.]. -/
def isNumDotChar (c : Char) : Bool := isDigitChar c || c = '.'

/-- Value of a decimal digit string (Python int on a \d+ match). -/
def natOfDigits (cs : List Char) : Nat :=
  cs.foldl (fun n c => n * 10 + (c.toNat - 48)) 0

/-- Python str.strip restricted to ASCII whitespace. -/
def strTrim (cs : List Char) : List Char :=
  ((cs.dropWhile isWsChar).reverse.dropWhile isWsChar).reverse

/-! ### classify_node -/

/-- Embedding of classify_node: classify a network node from its IP string and
hostname, with the exact rule order of the source (timeout, private-prefix,
radio vocabulary, satellite vocabulary, ISP vocabulary, wan default). -/
def classify_node (ip hostname : String) : String :=
  if ip = "timeout" then "unknown"
  else if strStarts ip "192.168." || strStarts ip "10." || strStarts ip "172." then
    if strHas (lowerS hostname) "gateway" || strEnds ip ".1" then "gateway" else "lan"
  else
    let hl := lowerS hostname
    if strHas hl "silvus" || strHas hl "radio" || strHas hl "mesh" then "radio"
    else if strHas hl "viasat" || strHas hl "satellite" || strHas hl "sat" then "satellite"
    else if strHas hl "isp" || strHas hl "comcast" || strHas hl "att" ||
            strHas hl "verizon" || strHas hl "spectrum" then "isp"
    else "wan"

/-! ### Hop parser -/

/-- One parsed hop record: hop number, hostname, IP string (the literal
"timeout" for a timed-out probe), and the first RTT of the line (absent for a
timeout). -/
structure Hop where
  hop : Nat
  hostname : String
  ip : String
  rtt_ms : Option ℚ
  deriving DecidableEq

/-- Python float() applied to a token drawn from the regex class [\d.]+:
valid exactly when the token has at least one digit and at most one dot;
the value is the exact decimal rational. -/
def parseFloat (cs : List Char) : Option ℚ :=
  if cs.all isNumDotChar then
    match (cs.filter (fun c => c = '.')).length with
    | 0 => if cs.isEmpty then none else some (mkRat (natOfDigits cs) 1)
    | 1 =>
        let ipart := cs.takeWhile (fun c => c ≠ '.')
        let fpart := (cs.dropWhile (fun c => c ≠ '.')).drop 1
        if ipart.isEmpty && fpart.isEmpty then none
        else some (mkRat (natOfDigits ipart * 10 ^ fpart.length + natOfDigits fpart)
                     (10 ^ fpart.length))
    | _ => none
  else none

/-- Deterministic reading of the anchored reply-hop regex
of the source, matched against one line: a run of whitespace, a hop number, at
least one whitespace then a lazily captured hostname segment running to the
first opening parenthesis, a nonempty [0-9.]+ address closed by a parenthesis,
then whitespace, the first RTT token [\d.]+, whitespace and the literal ms.
Returns (hop number, stripped hostname, address token, raw RTT token). -/
def matchReplyLine (line : String) : Option (Nat × String × String × List Char) :=
  let cs := (line.toList.dropWhile isWsChar)
  let digits := cs.takeWhile isDigitChar
  let cs1 := cs.dropWhile isDigitChar
  if digits.isEmpty then none
  else
    let t := cs1.takeWhile (fun c => c ≠ '(')
    match cs1.dropWhile (fun c => c ≠ '(') with
    | '(' :: r2 =>
      if (match t with
          | c :: _ :: _ => isWsChar c
          | _ => false) then
        let ipTok := r2.takeWhile isNumDotChar
        match ipTok, r2.dropWhile isNumDotChar with
        | _ :: _, ')' :: r4 =>
          let w1 := r4.takeWhile isWsChar
          let r5 := r4.dropWhile isWsChar
          let d := r5.takeWhile isNumDotChar
          let r6 := r5.dropWhile isNumDotChar
          let w2 := r6.takeWhile isWsChar
          match w1, d, w2, r6.dropWhile isWsChar with
          | _ :: _, _ :: _, _ :: _, 'm' :: 's' :: _ =>
            some (natOfDigits digits, String.mk (strTrim t), String.mk ipTok, d)
          | _, _, _, _ => none
        | _, _ => none
      else none
    | _ => none

/-- Deterministic reading of the timeout-line regex of the source
matched against one line: optional whitespace, a hop number, whitespace, then a
literal asterisk.  Returns the hop number. -/
def matchTimeoutLine (line : String) : Option Nat :=
  let cs := line.toList.dropWhile isWsChar
  let digits := cs.takeWhile isDigitChar
  let cs1 := cs.dropWhile isDigitChar
  if digits.isEmpty then none
  else
    let w := cs1.takeWhile isWsChar
    match w, cs1.dropWhile isWsChar with
    | _ :: _, '*' :: _ => some (natOfDigits digits)
    | _, _ => none

/-- Per-line action of the parser loop: some (some h) emits a hop, some none
drops the line, none models the ValueError raised by float() on an invalid RTT
token of a reply-matching line. -/
def hopOfLine (line : String) : Option (Option Hop) :=
  match matchReplyLine line with
  | some (n, hn, ip, rtt) =>
      match parseFloat rtt with
      | some q => some (some ⟨n, hn, ip, some q⟩)
      | none => none
  | none =>
      match matchTimeoutLine line with
      | some n => some (some ⟨n, "timeout", "timeout", none⟩)
      | none => some none

/-- The parser loop over the lines after the header line. -/
def processLines : List String → Option (List Hop)
  | [] => some []
  | l :: rest =>
    match hopOfLine l, processLines rest with
    | some (some h), some hs => some (h :: hs)
    | some none, some hs => some hs
    | _, _ => none

/-- Leftmost match of the target-extraction search on the
header line: the literal phrase followed by a nonempty run of characters that
are neither whitespace nor a comma; a phrase occurrence followed immediately by
whitespace or a comma is skipped, as regex search would. -/
def searchTargetAux : List Char → Option (List Char)
  | [] => none
  | c :: rest =>
    if listHasPre "traceroute to ".toList (c :: rest) then
      let tok := ((c :: rest).drop 14).takeWhile (fun ch => !isWsChar ch && ch ≠ ',')
      if tok.isEmpty then searchTargetAux rest else some tok
    else searchTargetAux rest

/-- Result of parsing one traceroute artifact: the optional target from the
header line and the ordered hop records. -/
structure ParseResult where
  target : Option String
  hops : List Hop
  deriving DecidableEq

/-- Embedding of parse_traceroute_file over the list of lines of the artifact:
an empty artifact yields target absent and no hops; otherwise the first line is
searched for the target and every later line is fed to the hop matchers.
Returns none when the Python code would raise (float() on a bad RTT token). -/
def parse_traceroute_file (lines : List String) : Option ParseResult :=
  match lines with
  | [] => some ⟨none, []⟩
  | first :: rest =>
    match processLines rest with
    | some hops => some ⟨(searchTargetAux first.toList).map String.mk, hops⟩
    | none => none

/-! ### Topology aggregator (build_network_graph) -/

/-- One parsed run as consumed by the aggregator: artifact name, target type,
optional target from the header line, and the ordered hop records. -/
structure TraceResult where
  artifact : String
  target_type : String
  target : Option String
  hops : List Hop
  deriving DecidableEq

/-- One per-run traversal record appended to the paths list of an edge. -/
structure Traversal where
  artifact : String
  target_type : String
  hop_num : Nat
  rtt_ms : Option ℚ
  deriving DecidableEq

/-- The per-IP record of node_info: hostname and type fixed at first sight,
rtts accumulated across every later sighting. -/
structure NodeInfo where
  hostname : String
  type : String
  rtts : List ℚ
  deriving DecidableEq

/-- The graph under construction: the networkx DiGraph is modelled by its
edge dictionary (keys are (source, destination) pairs, unique by construction,
in insertion order, each holding the paths list), together with the node_info
dictionary of build_network_graph. -/
structure BuildState where
  edges : List ((String × String) × List Traversal)
  node_info : List (String × NodeInfo)
  deriving DecidableEq

/-- Lookup in an association list (a Python dict access that may miss). -/
def alookup {α β : Type} [DecidableEq α] : List (α × β) → α → Option β
  | [], _ => none
  | (k, v) :: rest, k' => if k = k' then some v else alookup rest k'

/-- The edge step of the fold: create the edge with an empty paths list if it
is absent, then append the traversal record to its paths list. -/
def appendTrav : List ((String × String) × List Traversal) → String × String → Traversal →
    List ((String × String) × List Traversal)
  | [], k, tr => [(k, [tr])]
  | (k', ts) :: rest, k, tr =>
    if k' = k then (k', ts ++ [tr]) :: rest else (k', ts) :: appendTrav rest k tr

/-- The node_info step on first sight of an IP: record hostname, classify the
node, start an empty RTT list; an IP already present is left untouched. -/
def ensureNode : List (String × NodeInfo) → String → String → List (String × NodeInfo)
  | [], ip, hn => [(ip, ⟨hn, classify_node ip hn, []⟩)]
  | (ip', i) :: rest, ip, hn =>
    if ip' = ip then (ip', i) :: rest else (ip', i) :: ensureNode rest ip hn

/-- Append one observed RTT to the rtts list of the given IP. -/
def addRtt : List (String × NodeInfo) → String → ℚ → List (String × NodeInfo)
  | [], _, _ => []
  | (ip', i) :: rest, ip, q =>
    if ip' = ip then (ip', ⟨i.hostname, i.type, i.rtts ++ [q]⟩) :: rest
    else (ip', i) :: addRtt rest ip q

/-- The inner loop of build_network_graph over the hops of one run: a timeout
hop is skipped entirely (cursor unchanged); a valid hop records node_info,
appends its RTT when present, appends a traversal to the edge from the cursor,
and moves the cursor to its IP.  Returns the new state and the final cursor. -/
def foldHops (r : TraceResult) : BuildState → String → List Hop → BuildState × String
  | st, source, [] => (st, source)
  | st, source, h :: rest =>
    if h.ip = "timeout" then foldHops r st source rest
    else
      let ni := ensureNode st.node_info h.ip h.hostname
      let ni :=
        match h.rtt_ms with
        | some q => addRtt ni h.ip q
        | none => ni
      let ed := appendTrav st.edges (source, h.ip) ⟨r.artifact, r.target_type, h.hop, h.rtt_ms⟩
      foldHops r ⟨ed, ni⟩ h.ip rest

/-- Folding one TraceResult: walk the hops from the reserved cursor client,
then, when the run has hops and a truthy target, append the synthetic
reached-target edge from the final cursor with hop number len(hops)+1 and no
RTT. -/
def foldResult (st : BuildState) (r : TraceResult) : BuildState :=
  let p := foldHops r st "client" r.hops
  match r.target with
  | some t =>
    if r.hops ≠ [] ∧ t ≠ "" then
      ⟨appendTrav p.1.edges (p.2, t) ⟨r.artifact, r.target_type, r.hops.length + 1, none⟩,
       p.1.node_info⟩
    else p.1
  | none => p.1

/-- Embedding of build_network_graph: fold every TraceResult, in order, into
the empty graph. -/
def build_network_graph (results : List TraceResult) : BuildState :=
  results.foldl foldResult ⟨[], []⟩

/-- Arithmetic mean of a rational list, 0 when empty
(sum(rtts)/len(rtts) if rtts else 0; rational sums are order-insensitive). -/
def meanQ (l : List ℚ) : ℚ := if l = [] then 0 else l.sum / (l.length : ℚ)

/-- The set of nodes of the graph: every endpoint of an edge (nodes are only
ever created by add_edge in the source). -/
def nodeFinset (st : BuildState) : Finset String :=
  (st.edges.map (fun e => e.1.1)).toFinset ∪ (st.edges.map (fun e => e.1.2)).toFinset

/-- The set of directed edge keys of the graph. -/
def edgeKeys (st : BuildState) : Finset (String × String) :=
  (st.edges.map (fun e => e.1)).toFinset

/-- Out-degree of a node: the number of distinct edges leaving it (edge keys
are unique in the networkx adjacency structure). -/
def outDeg (st : BuildState) (n : String) : Nat :=
  ((edgeKeys st).filter (fun k => k.1 = n)).card

/-- Number of nodes other than the reserved origin. -/
def nonOriginCount (st : BuildState) : Nat := ((nodeFinset st).erase "client").card

/-- The node-attribute pass at the end of build_network_graph: the origin gets
fixed constants; a node present in node_info gets its recorded hostname and
type and the mean of its rtts; any other node of the graph gets no
attributes. -/
def graph_node_attrs (st : BuildState) (n : String) : Option (String × String × ℚ) :=
  if n ∈ nodeFinset st then
    if n = "client" then some ("client", "Test Computer", 0)
    else
      match alookup st.node_info n with
      | some i => some (i.type, i.hostname, meanQ i.rtts)
      | none => none
  else none

/-! ### Derived descriptions used in the statements -/

/-- The cursor position after walking a hop list from a starting cursor:
timeouts leave it unchanged, every valid hop moves it to that hop's IP. -/
def cursorAfter : String → List Hop → String
  | c, [] => c
  | c, h :: rest => if h.ip = "timeout" then cursorAfter c rest else cursorAfter h.ip rest

/-- The IP of the last non-timeout hop of a list, if any. -/
def lastValidIp : List Hop → Option String
  | [] => none
  | h :: rest =>
    match lastValidIp rest with
    | some x => some x
    | none => if h.ip = "timeout" then none else some h.ip

/-- The hop-to-hop transitions contributed by one run walked from a cursor:
timeouts contribute nothing, a valid hop contributes the edge from the cursor
to its IP. -/
def transIps : String → List Hop → List (String × String)
  | _, [] => []
  | c, h :: rest =>
    if h.ip = "timeout" then transIps c rest else (c, h.ip) :: transIps h.ip rest

/-- The edge keys contributed by one run: its transitions from the origin plus
the synthetic reached-target edge when hops are nonempty and the target is
truthy. -/
def contrib (r : TraceResult) : Finset (String × String) :=
  (transIps "client" r.hops).toFinset ∪
    (match r.target with
     | some t =>
       if r.hops ≠ [] ∧ t ≠ "" then {(cursorAfter "client" r.hops, t)} else (∅ : Finset _)
     | none => ∅)

/-- Union of the edge keys contributed by a list of runs. -/
def edgeUnion : List TraceResult → Finset (String × String)
  | [] => ∅
  | r :: rest => contrib r ∪ edgeUnion rest

/-- All hops of a list of runs, in fold order. -/
def hopsAll : List TraceResult → List Hop
  | [] => []
  | r :: rest => r.hops ++ hopsAll rest

/-- All RTT observations recorded at a given IP by a hop list, in order. -/
def collectRtts (hops : List Hop) (ip : String) : List ℚ :=
  hops.filterMap (fun h => if h.ip = ip then h.rtt_ms else none)

/-- The hostname of the first hop of a list carrying the given IP, if any. -/
def firstHost (hops : List Hop) (ip : String) : Option String :=
  (hops.find? (fun h => h.ip = ip)).map (fun h => h.hostname)

/-! ### Spec-side definition for the private-range claim -/

/-- Modelled from the spec: decimal value of one dotted-quad octet, accepting
only a canonical octet (digits, no leading zero except 0 itself, at most
255). -/
def octValue (cs : List Char) : Option Nat :=
  if !cs.isEmpty && cs.all isDigitChar &&
      (cs = ['0'] || cs.headD ' ' ≠ '0') && natOfDigits cs ≤ 255 then
    some (natOfDigits cs)
  else none

/-- Modelled from the spec: parse a canonical dotted-quad IPv4 address. -/
def parseIPv4 (s : String) : Option (Nat × Nat × Nat × Nat) :=
  match (s.toList.splitOn '.').map octValue with
  | [some a, some b, some c, some d] => some (a, b, c, d)
  | _ => none

/-- Modelled from the spec: membership of an address in one of the three
classical private blocks 10.0.0.0/8, 172.16.0.0/12, 192.168.0.0/16. -/
def isClassicalPrivate (s : String) : Bool :=
  match parseIPv4 s with
  | some (a, b, _, _) =>
    a = 10 || (a = 172 && 16 ≤ b && b ≤ 31) || (a = 192 && b = 168)
  | none => false

example : classify_node "192.168.1.1" "anything" = "gateway" := by decide
example : classify_node "8.8.8.8" "dns.google" = "wan" := by decide
example :
    build_network_graph
      [⟨"a", "server", some "9.9.9.9", [⟨1, "gw", "10.0.0.1", some 2⟩]⟩]
    = ⟨[(("client", "10.0.0.1"), [⟨"a", "server", 1, some 2⟩]),
        (("10.0.0.1", "9.9.9.9"), [⟨"a", "server", 2, none⟩])],
       [("10.0.0.1", ⟨"gw", "gateway", [2]⟩)]⟩ := by decide
example :
    graph_node_attrs
      (build_network_graph [⟨"a", "server", none, [⟨1, "gw", "10.0.0.1", none⟩]⟩]) "10.0.0.1"
    = some ("gateway", "gw", 0) := by decide
example : isClassicalPrivate "172.16.0.5" = true := by decide
example : isClassicalPrivate "172.15.0.5" = false := by decide
example : isClassicalPrivate "10.1.2.3" = true := by decide
example : isClassicalPrivate "not.an.ip" = false := by decide
example : classify_node "203.0.113.5" "viasat-gw" = "satellite" := by decide
example : classify_node "10.0.0.7" "host-a" = "lan" := by decide
example :
    parse_traceroute_file
      ["traceroute to 8.8.8.8 (8.8.8.8), 30 hops max, 60 byte packets",
       " 1  gateway (192.168.1.1)  1.234 ms  1.456 ms  1.789 ms",
       " 2  * * *",
       "garbage line"]
    = some ⟨some "8.8.8.8",
        [⟨1, "gateway", "192.168.1.1", some (mkRat 1234 1000)⟩,
         ⟨2, "timeout", "timeout", none⟩]⟩ := by decide

/-! ### Association-list lemmas -/

theorem alookup_appendTrav_self (es : List ((String × String) × List Traversal))
    (k : String × String) (tr : Traversal) :
    alookup (appendTrav es k tr) k = some ((alookup es k).getD [] ++ [tr]) := by
  induction es with
  | nil => simp [appendTrav, alookup]
  | cons e rest ih =>
    obtain ⟨k', ts⟩ := e
    by_cases hk : k' = k
    · subst hk
      simp [appendTrav, alookup]
    · simp [appendTrav, alookup, hk, ih]

theorem alookup_appendTrav_ne (es : List ((String × String) × List Traversal))
    {k k' : String × String} (tr : Traversal) (h : k' ≠ k) :
    alookup (appendTrav es k tr) k' = alookup es k' := by
  induction es with
  | nil => simp [appendTrav, alookup, Ne.symm h]
  | cons e rest ih =>
    obtain ⟨k'', ts⟩ := e
    by_cases hk : k'' = k
    · subst hk
      simp [appendTrav, alookup, Ne.symm h]
    · simp [appendTrav, alookup, hk, ih]

theorem keys_appendTrav (es : List ((String × String) × List Traversal))
    (k : String × String) (tr : Traversal) :
    ((appendTrav es k tr).map (fun e => e.1)).toFinset =
      insert k ((es.map (fun e => e.1)).toFinset) := by
  induction es with
  | nil => simp [appendTrav]
  | cons e rest ih =>
    obtain ⟨k', ts⟩ := e
    by_cases hk : k' = k
    · subst hk
      simp [appendTrav]
    · simp [appendTrav, hk, ih, Finset.Insert.comm]

theorem alookup_ensureNode_self (ni : List (String × NodeInfo)) (ip hn : String) :
    alookup (ensureNode ni ip hn) ip =
      some ((alookup ni ip).getD ⟨hn, classify_node ip hn, []⟩) := by
  induction ni with
  | nil => simp [ensureNode, alookup]
  | cons e rest ih =>
    obtain ⟨ip', i⟩ := e
    by_cases hk : ip' = ip
    · subst hk
      simp [ensureNode, alookup]
    · simp [ensureNode, alookup, hk, ih]

theorem alookup_ensureNode_ne (ni : List (String × NodeInfo)) {ip k : String} (hn : String)
    (h : k ≠ ip) : alookup (ensureNode ni ip hn) k = alookup ni k := by
  induction ni with
  | nil => simp [ensureNode, alookup, Ne.symm h]
  | cons e rest ih =>
    obtain ⟨ip', i⟩ := e
    by_cases hk : ip' = ip
    · subst hk
      simp [ensureNode, alookup, Ne.symm h]
    · simp [ensureNode, alookup, hk, ih]

theorem alookup_addRtt_self (ni : List (String × NodeInfo)) (ip : String) (q : ℚ) :
    alookup (addRtt ni ip q) ip =
      (alookup ni ip).map (fun i => ⟨i.hostname, i.type, i.rtts ++ [q]⟩) := by
  induction ni with
  | nil => simp [addRtt, alookup]
  | cons e rest ih =>
    obtain ⟨ip', i⟩ := e
    by_cases hk : ip' = ip
    · subst hk
      simp [addRtt, alookup]
    · simp [addRtt, alookup, hk, ih]

theorem alookup_addRtt_ne (ni : List (String × NodeInfo)) {ip k : String} (q : ℚ)
    (h : k ≠ ip) : alookup (addRtt ni ip q) k = alookup ni k := by
  induction ni with
  | nil => simp [addRtt, alookup]
  | cons e rest ih =>
    obtain ⟨ip', i⟩ := e
    by_cases hk : ip' = ip
    · subst hk
      simp [addRtt, alookup, Ne.symm h]
    · simp [addRtt, alookup, hk, ih]

/-! ### Edge-set lemmas for the fold -/

theorem foldHops_cursor (r : TraceResult) (st : BuildState) (c : String) (hops : List Hop) :
    (foldHops r st c hops).2 = cursorAfter c hops := by
  induction hops generalizing st c with
  | nil => simp [foldHops, cursorAfter]
  | cons h rest ih =>
    by_cases ht : h.ip = "timeout" <;> simp [foldHops, cursorAfter, ht, ih]

theorem edgeKeys_appendTrav (st : BuildState) (ni : List (String × NodeInfo))
    (k : String × String) (tr : Traversal) :
    edgeKeys ⟨appendTrav st.edges k tr, ni⟩ = insert k (edgeKeys st) := by
  simp [edgeKeys, keys_appendTrav]

theorem edgeKeys_foldHops (r : TraceResult) (st : BuildState) (c : String) (hops : List Hop) :
    edgeKeys (foldHops r st c hops).1 = edgeKeys st ∪ (transIps c hops).toFinset := by
  induction hops generalizing st c with
  | nil => simp [foldHops, transIps]
  | cons h rest ih =>
    by_cases ht : h.ip = "timeout"
    · simp [foldHops, transIps, ht, ih]
    · simp only [foldHops, transIps, ht, if_neg, ite_false, List.toFinset_cons]
      rw [ih]
      rw [edgeKeys_appendTrav]
      simp [Finset.insert_union, Finset.union_insert]

theorem edgeKeys_foldResult (st : BuildState) (r : TraceResult) :
    edgeKeys (foldResult st r) = edgeKeys st ∪ contrib r := by
  unfold foldResult contrib
  cases htgt : r.target with
  | none => simp [edgeKeys_foldHops]
  | some t =>
    by_cases hc : r.hops ≠ [] ∧ t ≠ ""
    · simp only [if_pos hc]
      rw [edgeKeys_appendTrav ((foldHops r st "client" r.hops).1)]
      rw [edgeKeys_foldHops, foldHops_cursor]
      simp [Finset.insert_eq, Finset.union_comm, Finset.union_left_comm, Finset.union_assoc]
    · simp [hc, edgeKeys_foldHops]

theorem edgeKeys_foldl (rs : List TraceResult) (st : BuildState) :
    edgeKeys (rs.foldl foldResult st) = edgeKeys st ∪ edgeUnion rs := by
  induction rs generalizing st with
  | nil => simp [edgeUnion]
  | cons r rest ih =>
    simp only [List.foldl_cons, edgeUnion]
    rw [ih, edgeKeys_foldResult, Finset.union_assoc]

theorem edgeKeys_build (rs : List TraceResult) :
    edgeKeys (build_network_graph rs) = edgeUnion rs := by
  have h := edgeKeys_foldl rs ⟨[], []⟩
  simpa [build_network_graph, edgeKeys] using h

theorem edgeUnion_perm {l1 l2 : List TraceResult} (p : l1.Perm l2) :
    edgeUnion l1 = edgeUnion l2 := by
  induction p with
  | nil => rfl
  | cons x _ ih => simp [edgeUnion, ih]
  | swap x y l => simp [edgeUnion, Finset.union_left_comm, Finset.union_assoc]
  | trans _ _ ih1 ih2 => rw [ih1, ih2]

theorem list_toFinset_map {α β : Type} [DecidableEq α] [DecidableEq β]
    (l : List α) (f : α → β) : (l.map f).toFinset = l.toFinset.image f := by
  induction l with
  | nil => simp
  | cons a t ih => simp [ih]

theorem nodeFinset_eq_image (st : BuildState) :
    nodeFinset st = (edgeKeys st).image Prod.fst ∪ (edgeKeys st).image Prod.snd := by
  unfold nodeFinset edgeKeys
  rw [← list_toFinset_map, ← list_toFinset_map, List.map_map, List.map_map]
  rfl

/-! ### node_info characterization lemmas -/

theorem collectRtts_append (l1 l2 : List Hop) (ip : String) :
    collectRtts (l1 ++ l2) ip = collectRtts l1 ip ++ collectRtts l2 ip := by
  simp [collectRtts, List.filterMap_append]

theorem firstHost_append (l1 l2 : List Hop) (ip : String) :
    firstHost (l1 ++ l2) ip = (firstHost l1 ip).or (firstHost l2 ip) := by
  simp only [firstHost, List.find?_append]
  cases l1.find? (fun h => h.ip = ip) <;> simp

theorem collectRtts_cons_ne {hp : Hop} (rest : List Hop) {ip : String} (h : hp.ip ≠ ip) :
    collectRtts (hp :: rest) ip = collectRtts rest ip := by
  simp [collectRtts, List.filterMap_cons, h]

theorem collectRtts_cons_eq {hp : Hop} (rest : List Hop) {ip : String} (h : hp.ip = ip) :
    collectRtts (hp :: rest) ip = hp.rtt_ms.toList ++ collectRtts rest ip := by
  cases hrtt : hp.rtt_ms <;> simp [collectRtts, List.filterMap_cons, h, hrtt]

theorem firstHost_cons_ne {hp : Hop} (rest : List Hop) {ip : String} (h : hp.ip ≠ ip) :
    firstHost (hp :: rest) ip = firstHost rest ip := by
  simp [firstHost, List.find?_cons, h]

theorem firstHost_cons_eq {hp : Hop} (rest : List Hop) {ip : String} (h : hp.ip = ip) :
    firstHost (hp :: rest) ip = some hp.hostname := by
  simp [firstHost, List.find?_cons, h]

theorem ni_foldHops_present (r : TraceResult) (hops : List Hop) (st : BuildState)
    (c ip : String) (i : NodeInfo) (hip : ip ≠ "timeout")
    (h : alookup st.node_info ip = some i) :
    alookup (foldHops r st c hops).1.node_info ip =
      some ⟨i.hostname, i.type, i.rtts ++ collectRtts hops ip⟩ := by
  induction hops generalizing st c i with
  | nil => simp [foldHops, collectRtts, h]
  | cons hp rest ih =>
    by_cases ht : hp.ip = "timeout"
    · have hne : hp.ip ≠ ip := by rw [ht]; exact fun e => hip e.symm
      rw [collectRtts_cons_ne rest hne]
      simpa [foldHops, ht] using ih st c i h
    · cases hrtt : hp.rtt_ms with
      | none =>
        have hstep : (foldHops r st c (hp :: rest)).1 =
            (foldHops r ⟨appendTrav st.edges (c, hp.ip)
              ⟨r.artifact, r.target_type, hp.hop, hp.rtt_ms⟩,
              ensureNode st.node_info hp.ip hp.hostname⟩ hp.ip rest).1 := by
          simp [foldHops, ht, hrtt]
        by_cases hv : hp.ip = ip
        · have h1 : alookup (ensureNode st.node_info hp.ip hp.hostname) ip = some i := by
            rw [hv, alookup_ensureNode_self, h]
            rfl
          rw [hstep, ih _ _ i h1, collectRtts_cons_eq rest hv, hrtt]
          simp
        · have h1 : alookup (ensureNode st.node_info hp.ip hp.hostname) ip = some i := by
            rw [alookup_ensureNode_ne _ _ (fun e => hv e.symm), h]
          rw [hstep, ih _ _ i h1, collectRtts_cons_ne rest hv]
      | some q =>
        have hstep : (foldHops r st c (hp :: rest)).1 =
            (foldHops r ⟨appendTrav st.edges (c, hp.ip)
              ⟨r.artifact, r.target_type, hp.hop, hp.rtt_ms⟩,
              addRtt (ensureNode st.node_info hp.ip hp.hostname) hp.ip q⟩ hp.ip rest).1 := by
          simp [foldHops, ht, hrtt]
        by_cases hv : hp.ip = ip
        · have h1 : alookup (addRtt (ensureNode st.node_info hp.ip hp.hostname) hp.ip q) ip =
              some ⟨i.hostname, i.type, i.rtts ++ [q]⟩ := by
            rw [hv, alookup_addRtt_self, alookup_ensureNode_self, h]
            rfl
          rw [hstep, ih _ _ _ h1, collectRtts_cons_eq rest hv, hrtt]
          simp [List.append_assoc]
        · have h1 : alookup (addRtt (ensureNode st.node_info hp.ip hp.hostname) hp.ip q) ip =
              some i := by
            rw [alookup_addRtt_ne _ _ (fun e => hv e.symm),
              alookup_ensureNode_ne _ _ (fun e => hv e.symm), h]
          rw [hstep, ih _ _ i h1, collectRtts_cons_ne rest hv]

theorem ni_foldHops_absent (r : TraceResult) (hops : List Hop) (st : BuildState)
    (c ip : String) (hip : ip ≠ "timeout")
    (h : alookup st.node_info ip = none) :
    alookup (foldHops r st c hops).1.node_info ip =
      (firstHost hops ip).map (fun hn => ⟨hn, classify_node ip hn, collectRtts hops ip⟩) := by
  induction hops generalizing st c with
  | nil => simp [foldHops, firstHost, collectRtts, h]
  | cons hp rest ih =>
    by_cases ht : hp.ip = "timeout"
    · have hne : hp.ip ≠ ip := by rw [ht]; exact fun e => hip e.symm
      rw [collectRtts_cons_ne rest hne, firstHost_cons_ne rest hne]
      simpa [foldHops, ht] using ih st c h
    · cases hrtt : hp.rtt_ms with
      | none =>
        have hstep : (foldHops r st c (hp :: rest)).1 =
            (foldHops r ⟨appendTrav st.edges (c, hp.ip)
              ⟨r.artifact, r.target_type, hp.hop, hp.rtt_ms⟩,
              ensureNode st.node_info hp.ip hp.hostname⟩ hp.ip rest).1 := by
          simp [foldHops, ht, hrtt]
        by_cases hv : hp.ip = ip
        · have h1 : alookup (ensureNode st.node_info hp.ip hp.hostname) ip =
              some ⟨hp.hostname, classify_node ip hp.hostname, []⟩ := by
            rw [hv, alookup_ensureNode_self, h]
            rfl
          rw [hstep, ni_foldHops_present r rest _ _ _ _ hip h1,
            collectRtts_cons_eq rest hv, firstHost_cons_eq rest hv, hrtt]
          simp
        · have h1 : alookup (ensureNode st.node_info hp.ip hp.hostname) ip = none := by
            rw [alookup_ensureNode_ne _ _ (fun e => hv e.symm), h]
          rw [hstep, ih _ _ h1, collectRtts_cons_ne rest hv, firstHost_cons_ne rest hv]
      | some q =>
        have hstep : (foldHops r st c (hp :: rest)).1 =
            (foldHops r ⟨appendTrav st.edges (c, hp.ip)
              ⟨r.artifact, r.target_type, hp.hop, hp.rtt_ms⟩,
              addRtt (ensureNode st.node_info hp.ip hp.hostname) hp.ip q⟩ hp.ip rest).1 := by
          simp [foldHops, ht, hrtt]
        by_cases hv : hp.ip = ip
        · have h1 : alookup (addRtt (ensureNode st.node_info hp.ip hp.hostname) hp.ip q) ip =
              some ⟨hp.hostname, classify_node ip hp.hostname, [q]⟩ := by
            rw [hv, alookup_addRtt_self, alookup_ensureNode_self, h]
            rfl
          rw [hstep, ni_foldHops_present r rest _ _ _ _ hip h1,
            collectRtts_cons_eq rest hv, firstHost_cons_eq rest hv, hrtt]
          simp
        · have h1 : alookup (addRtt (ensureNode st.node_info hp.ip hp.hostname) hp.ip q) ip =
              none := by
            rw [alookup_addRtt_ne _ _ (fun e => hv e.symm),
              alookup_ensureNode_ne _ _ (fun e => hv e.symm), h]
          rw [hstep, ih _ _ h1, collectRtts_cons_ne rest hv, firstHost_cons_ne rest hv]

theorem ni_foldResult (st : BuildState) (r : TraceResult) :
    (foldResult st r).node_info = (foldHops r st "client" r.hops).1.node_info := by
  unfold foldResult
  cases r.target with
  | none => rfl
  | some t =>
    by_cases hc : r.hops ≠ [] ∧ t ≠ "" <;> simp [hc]

theorem ni_foldl_present (rs : List TraceResult) (st : BuildState) (ip : String)
    (i : NodeInfo) (hip : ip ≠ "timeout") (h : alookup st.node_info ip = some i) :
    alookup (rs.foldl foldResult st).node_info ip =
      some ⟨i.hostname, i.type, i.rtts ++ collectRtts (hopsAll rs) ip⟩ := by
  induction rs generalizing st i with
  | nil => simp [hopsAll, collectRtts, h]
  | cons r rest ih =>
    have h1 : alookup (foldResult st r).node_info ip =
        some ⟨i.hostname, i.type, i.rtts ++ collectRtts r.hops ip⟩ := by
      rw [ni_foldResult]; exact ni_foldHops_present r r.hops st "client" ip i hip h
    have := ih (foldResult st r) ⟨i.hostname, i.type, i.rtts ++ collectRtts r.hops ip⟩ h1
    simpa [hopsAll, collectRtts_append, List.append_assoc] using this

theorem ni_foldl_absent (rs : List TraceResult) (st : BuildState) (ip : String)
    (hip : ip ≠ "timeout") (h : alookup st.node_info ip = none) :
    alookup (rs.foldl foldResult st).node_info ip =
      (firstHost (hopsAll rs) ip).map
        (fun hn => ⟨hn, classify_node ip hn, collectRtts (hopsAll rs) ip⟩) := by
  induction rs generalizing st with
  | nil => simp [hopsAll, firstHost, h]
  | cons r rest ih =>
    rcases hf : firstHost r.hops ip with _ | hn
    · have h1 : alookup (foldResult st r).node_info ip = none := by
        rw [ni_foldResult, ni_foldHops_absent r r.hops st "client" ip hip h, hf]
        rfl
      have hcr : collectRtts r.hops ip = [] := by
        have hnone : r.hops.find? (fun h => h.ip = ip) = none := by
          have := hf
          unfold firstHost at this
          cases hfind : r.hops.find? (fun h => h.ip = ip) with
          | none => rfl
          | some a => rw [hfind] at this; simp at this
        rw [List.find?_eq_none] at hnone
        unfold collectRtts
        rw [List.filterMap_eq_nil_iff]
        intro a ha
        have : ¬ a.ip = ip := by simpa using hnone a ha
        simp [this]
      have := ih (foldResult st r) h1
      simpa [hopsAll, collectRtts_append, firstHost_append, hf, hcr] using this
    · have h1 : alookup (foldResult st r).node_info ip =
          some ⟨hn, classify_node ip hn, collectRtts r.hops ip⟩ := by
        rw [ni_foldResult, ni_foldHops_absent r r.hops st "client" ip hip h, hf]
        rfl
      have := ni_foldl_present rest (foldResult st r) ip
        ⟨hn, classify_node ip hn, collectRtts r.hops ip⟩ hip h1
      simpa [hopsAll, collectRtts_append, firstHost_append, hf] using this

/-- Master characterization of node_info after a full build: an IP other than
the timeout marker is recorded exactly when it occurs as a hop, with the
hostname of its first occurrence, the classification of that hostname, and all
its RTT observations in order. -/
theorem ni_build (rs : List TraceResult) (ip : String) (hip : ip ≠ "timeout") :
    alookup (build_network_graph rs).node_info ip =
      (firstHost (hopsAll rs) ip).map
        (fun hn => ⟨hn, classify_node ip hn, collectRtts (hopsAll rs) ip⟩) := by
  exact ni_foldl_absent rs ⟨[], []⟩ ip hip rfl

/-! ### Membership lemmas -/

theorem trans_mem_of_hop {hops : List Hop} {h : Hop} (c : String)
    (hm : h ∈ hops) (ht : h.ip ≠ "timeout") :
    ∃ p, (p, h.ip) ∈ transIps c hops := by
  induction hops generalizing c with
  | nil => cases hm
  | cons hp rest ih =>
    rcases List.mem_cons.1 hm with rfl | hm'
    · simp [transIps, ht]
    · by_cases htp : hp.ip = "timeout"
      · simpa [transIps, htp] using ih c hm'
      · obtain ⟨p, hp'⟩ := ih hp.ip hm'
        exact ⟨p, by simp [transIps, htp, hp']⟩

theorem contrib_subset_edgeUnion {r : TraceResult} {rs : List TraceResult} (hm : r ∈ rs) :
    contrib r ⊆ edgeUnion rs := by
  induction rs with
  | nil => cases hm
  | cons r' rest ih =>
    rcases List.mem_cons.1 hm with rfl | hm'
    · exact Finset.subset_union_left
    · exact (ih hm').trans Finset.subset_union_right

theorem mem_hopsAll {h : Hop} {rs : List TraceResult} (hm : h ∈ hopsAll rs) :
    ∃ r ∈ rs, h ∈ r.hops := by
  induction rs with
  | nil => cases hm
  | cons r rest ih =>
    rcases List.mem_append.1 hm with h1 | h2
    · exact ⟨r, List.mem_cons_self r rest, h1⟩
    · obtain ⟨r', hr', hh⟩ := ih h2
      exact ⟨r', List.mem_cons_of_mem r hr', hh⟩

theorem snd_mem_nodeFinset {st : BuildState} {k : String × String} (hk : k ∈ edgeKeys st) :
    k.2 ∈ nodeFinset st := by
  rw [nodeFinset_eq_image]
  exact Finset.mem_union_right _ (Finset.mem_image_of_mem Prod.snd hk)

/-- An IP recorded in node_info after a build is a node of the graph. -/
theorem node_mem_of_ni (rs : List TraceResult) (ip : String) (hip : ip ≠ "timeout")
    (h : (alookup (build_network_graph rs).node_info ip).isSome) :
    ip ∈ nodeFinset (build_network_graph rs) := by
  rw [ni_build rs ip hip] at h
  rcases hf : firstHost (hopsAll rs) ip with _ | hn
  · rw [hf] at h; simp at h
  · have hfind := hf
    unfold firstHost at hfind
    rcases hfind2 : (hopsAll rs).find? (fun h => h.ip = ip) with _ | h0
    · rw [hfind2] at hfind; simp at hfind
    · have hmem : h0 ∈ hopsAll rs := List.mem_of_find?_eq_some hfind2
      have hpred : h0.ip = ip := by
        have := List.find?_some hfind2
        simpa using this
      obtain ⟨r, hr, hh⟩ := mem_hopsAll hmem
      obtain ⟨p, hp⟩ := trans_mem_of_hop "client" hh (by rw [hpred]; exact hip)
      have hk : (p, ip) ∈ edgeKeys (build_network_graph rs) := by
        rw [edgeKeys_build]
        refine contrib_subset_edgeUnion hr ?_
        refine Finset.mem_union_left _ ?_
        rw [List.mem_toFinset]
        rw [hpred] at hp
        exact hp
      exact snd_mem_nodeFinset hk

/-! ### Cursor lemmas -/

theorem cursorAfter_of_lastValid_none {hops : List Hop} (c : String)
    (h : lastValidIp hops = none) : cursorAfter c hops = c := by
  induction hops generalizing c with
  | nil => rfl
  | cons hp rest ih =>
    unfold lastValidIp at h
    rcases hl : lastValidIp rest with _ | x
    · rw [hl] at h
      by_cases htp : hp.ip = "timeout"
      · simpa [cursorAfter, htp] using ih c hl
      · simp [htp] at h
    · rw [hl] at h; simp at h

theorem cursorAfter_of_lastValid {hops : List Hop} {x : String} (c : String)
    (h : lastValidIp hops = some x) : cursorAfter c hops = x := by
  induction hops generalizing c with
  | nil => simp [lastValidIp] at h
  | cons hp rest ih =>
    unfold lastValidIp at h
    rcases hl : lastValidIp rest with _ | y
    · rw [hl] at h
      by_cases htp : hp.ip = "timeout"
      · simp [htp] at h
      · simp [htp] at h
        subst h
        simp [cursorAfter, htp, cursorAfter_of_lastValid_none hp.ip hl]
    · rw [hl] at h
      simp at h
      subst h
      by_cases htp : hp.ip = "timeout" <;> simp [cursorAfter, htp, ih _ hl]

theorem getLast?_append_singleton {α : Type} (l : List α) (a : α) :
    (l ++ [a]).getLast? = some a := by
  induction l with
  | nil => rfl
  | cons b t ih =>
    cases t with
    | nil => rfl
    | cons c u =>
      simp only [List.cons_append] at ih ⊢
      rw [List.getLast?_cons_cons]
      exact ih

/-! ### Claim C1 -/

/-- C1 counterexample: folding a run whose hops are 1.1.1.1, a timeout, then
2.2.2.2 produces an edge from 1.1.1.1 straight to 2.2.2.2 attributed to that
run, so the gap left by the timeout IS bridged, contrary to the claim. -/
theorem C1_counterexample :
    alookup (build_network_graph
      [⟨"a1", "server", none,
        [⟨1, "h1", "1.1.1.1", some 1⟩,
         ⟨2, "timeout", "timeout", none⟩,
         ⟨3, "h3", "2.2.2.2", some 2⟩]⟩]).edges ("1.1.1.1", "2.2.2.2")
      = some [⟨"a1", "server", 3, some 2⟩] := by decide

/-- C1 amended: a hop record with ip "timeout" contributes no node, no edge and
no cursor movement — the fold is exactly as if the timeout hop were deleted
from the run; consequently the next valid hop is joined by an edge to the node
observed immediately before the timeout. -/
theorem C1_timeout_skipped (r : TraceResult) (st : BuildState) (c : String)
    (xs ys : List Hop) (h : Hop) (ht : h.ip = "timeout") :
    foldHops r st c (xs ++ h :: ys) = foldHops r st c (xs ++ ys) := by
  induction xs generalizing st c with
  | nil => simp [foldHops, ht]
  | cons x xs ih =>
    by_cases hx : x.ip = "timeout" <;> simp [foldHops, hx, ih]

/-- C1 witness. -/
theorem C1_witness :
    foldHops ⟨"a1", "server", none, []⟩ ⟨[], []⟩ "client"
      [⟨1, "h1", "1.1.1.1", some 1⟩, ⟨2, "timeout", "timeout", none⟩,
       ⟨3, "h3", "2.2.2.2", some 2⟩] =
    foldHops ⟨"a1", "server", none, []⟩ ⟨[], []⟩ "client"
      [⟨1, "h1", "1.1.1.1", some 1⟩, ⟨3, "h3", "2.2.2.2", some 2⟩] :=
  C1_timeout_skipped ⟨"a1", "server", none, []⟩ ⟨[], []⟩ "client"
    [⟨1, "h1", "1.1.1.1", some 1⟩] [⟨3, "h3", "2.2.2.2", some 2⟩]
    ⟨2, "timeout", "timeout", none⟩ rfl

/-! ### Claim C2 -/

/-- C2 counterexample: the same IP seen with hostname first-name in the first
run and second-name in the second run keeps first-name in the finalized graph,
so the aggregator keeps the FIRST-seen hostname, not the last-seen one. -/
theorem C2_counterexample :
    (graph_node_attrs (build_network_graph
      [⟨"a1", "server", none, [⟨1, "first-name", "9.9.9.9", none⟩]⟩,
       ⟨"a2", "server", none, [⟨1, "second-name", "9.9.9.9", none⟩]⟩]) "9.9.9.9")
        = some ("wan", "first-name", 0) ∧
    ("first-name" : String) ≠ "second-name" := by
  constructor
  · decide
  · decide

/-- C2 amended: node hostname and type are first-write-wins: once an IP is
recorded in node_info, folding further runs never changes its hostname or its
type, and the hostname recorded after a full build is the hostname of the
FIRST non-timeout hop bearing that IP in fold order. -/
theorem C2_first_hostname_wins :
    (∀ (st : BuildState) (r : TraceResult) (ip : String) (i : NodeInfo),
      ip ≠ "timeout" → alookup st.node_info ip = some i →
      ∃ l, alookup (foldResult st r).node_info ip = some ⟨i.hostname, i.type, l⟩) ∧
    (∀ (rs : List TraceResult) (ip : String), ip ≠ "timeout" →
      (alookup (build_network_graph rs).node_info ip).map (fun i => i.hostname) =
        firstHost (hopsAll rs) ip) := by
  constructor
  · intro st r ip i hip h
    refine ⟨i.rtts ++ collectRtts r.hops ip, ?_⟩
    rw [ni_foldResult]
    exact ni_foldHops_present r r.hops st "client" ip i hip h
  · intro rs ip hip
    rw [ni_build rs ip hip]
    cases firstHost (hopsAll rs) ip <;> rfl

/-- C2 witness. -/
theorem C2_witness :
    (∃ l, alookup (foldResult ⟨[], [("9.9.9.9", ⟨"h1", "wan", []⟩)]⟩
        ⟨"a2", "server", none, [⟨1, "h2", "9.9.9.9", none⟩]⟩).node_info "9.9.9.9"
        = some ⟨"h1", "wan", l⟩) ∧
    (alookup (build_network_graph
        [⟨"a1", "server", none, [⟨1, "hA", "7.7.7.7", none⟩]⟩]).node_info "7.7.7.7").map
        (fun i => i.hostname)
      = firstHost (hopsAll [⟨"a1", "server", none, [⟨1, "hA", "7.7.7.7", none⟩]⟩]) "7.7.7.7" :=
  ⟨C2_first_hostname_wins.1 ⟨[], [("9.9.9.9", ⟨"h1", "wan", []⟩)]⟩
      ⟨"a2", "server", none, [⟨1, "h2", "9.9.9.9", none⟩]⟩ "9.9.9.9" ⟨"h1", "wan", []⟩
      (by decide) (by decide),
   C2_first_hostname_wins.2 [⟨"a1", "server", none, [⟨1, "hA", "7.7.7.7", none⟩]⟩]
      "7.7.7.7" (by decide)⟩

/-! ### Claim C3 -/

/-- C3 counterexample: 172.1.2.1 lies in none of the three classical private
blocks, yet the classifier applies the private-address rule to it (it returns
gateway; with the same hostname a genuinely public address falls through to
wan), because the source tests the string prefix 172. rather than
172.16.0.0/12. -/
theorem C3_counterexample :
    isClassicalPrivate "172.1.2.1" = false ∧
    classify_node "172.1.2.1" "somehost" = "gateway" ∧
    classify_node "8.8.8.8" "somehost" = "wan" := by
  refine ⟨by decide, by decide, by decide⟩

/-- C3 amended: the private-address rule (gateway if the hostname contains
"gateway" case-insensitively or the address ends in ".1", else lan) applies
exactly when the ip string starts with "192.168.", "10." or "172." — a prefix
test that covers the three classical private blocks but also all of
172.0.0.0/8; on any other non-timeout input the classifier never returns
gateway or lan. -/
theorem C3_private_prefix_rule (ip hostname : String) (hip : ip ≠ "timeout") :
    ((strStarts ip "192.168." || strStarts ip "10." || strStarts ip "172.") = true →
      classify_node ip hostname =
        (if strHas (lowerS hostname) "gateway" || strEnds ip ".1" then "gateway" else "lan")) ∧
    ((strStarts ip "192.168." || strStarts ip "10." || strStarts ip "172.") = false →
      classify_node ip hostname ≠ "gateway" ∧ classify_node ip hostname ≠ "lan") := by
  constructor
  · intro hpre
    simp [classify_node, hip, hpre]
  · intro hpre
    simp only [classify_node, if_neg hip, hpre, Bool.false_eq_true, if_false]
    split_ifs <;> exact ⟨by decide, by decide⟩

/-- C3 witness. -/
theorem C3_witness :
    classify_node "172.1.2.1" "plainbox" =
      (if strHas (lowerS "plainbox") "gateway" || strEnds "172.1.2.1" ".1"
       then "gateway" else "lan") ∧
    (classify_node "203.0.113.5" "plainbox" ≠ "gateway" ∧
     classify_node "203.0.113.5" "plainbox" ≠ "lan") :=
  ⟨(C3_private_prefix_rule "172.1.2.1" "plainbox" (by decide)).1 (by decide),
   (C3_private_prefix_rule "203.0.113.5" "plainbox" (by decide)).2 (by decide)⟩

/-! ### Claim C6 -/

/-- C6: the five classifier test vectors of the spec hold: 192.168.1.1 is a
gateway for any hostname shown; 192.168.1.50 is lan for any hostname not
containing "gateway" case-insensitively; 8.8.8.8/dns.google is wan;
203.0.113.5/viasat-gw is satellite; the timeout marker is unknown for every
hostname. -/
theorem C6_classifier_vectors :
    classify_node "192.168.1.1" "anything" = "gateway" ∧
    (∀ h : String, strHas (lowerS h) "gateway" = false →
      classify_node "192.168.1.50" h = "lan") ∧
    classify_node "8.8.8.8" "dns.google" = "wan" ∧
    classify_node "203.0.113.5" "viasat-gw" = "satellite" ∧
    (∀ h : String, classify_node "timeout" h = "unknown") := by
  refine ⟨by decide, ?_, by decide, by decide, ?_⟩
  · intro h hh
    simp only [classify_node, if_neg (by decide : ¬ ("192.168.1.50" : String) = "timeout")]
    rw [if_pos (by decide :
      (strStarts "192.168.1.50" "192.168." || strStarts "192.168.1.50" "10." ||
        strStarts "192.168.1.50" "172.") = true)]
    rw [(by decide : strEnds "192.168.1.50" ".1" = false), hh]
    rfl
  · intro h
    simp [classify_node]

/-- C6 witness. -/
theorem C6_witness :
    classify_node "192.168.1.50" "host-a" = "lan" ∧
    classify_node "timeout" "whatever" = "unknown" :=
  ⟨C6_classifier_vectors.2.1 "host-a" (by decide),
   C6_classifier_vectors.2.2.2.2 "whatever"⟩

/-! ### Claim C4 -/

/-- C4 counterexample: a run whose declared target 5.6.7.8 never occurs as a
hop creates the node 5.6.7.8 through the synthetic reached-target edge, yet
that node receives NO attributes (no role, hostname or avg_rtt) in the
finalized graph, contrary to the claim. -/
theorem C4_counterexample :
    graph_node_attrs (build_network_graph
      [⟨"a1", "server", some "5.6.7.8", [⟨1, "h", "1.2.3.4", some 1⟩]⟩]) "5.6.7.8" = none ∧
    "5.6.7.8" ∈ nodeFinset (build_network_graph
      [⟨"a1", "server", some "5.6.7.8", [⟨1, "h", "1.2.3.4", some 1⟩]⟩]) ∧
    ("5.6.7.8" : String) ≠ "client" := by
  refine ⟨by decide, by decide, by decide⟩

/-- C4 amended: after a build, every non-origin node recorded in node_info
(i.e. seen as a non-timeout hop) carries attributes whose role is the
classifier applied to its recorded (first-seen) hostname, together with that
hostname and its average RTT; a node of the graph absent from node_info — such
as one created only by the synthetic reached-target edge — carries no
attributes. -/
theorem C4_roles_from_recorded_hostname :
    (∀ (rs : List TraceResult) (ip : String) (i : NodeInfo),
      ip ≠ "timeout" → ip ≠ "client" →
      alookup (build_network_graph rs).node_info ip = some i →
      graph_node_attrs (build_network_graph rs) ip =
        some (classify_node ip i.hostname, i.hostname, meanQ i.rtts) ∧
      i.type = classify_node ip i.hostname) ∧
    (∀ (rs : List TraceResult) (ip : String), ip ≠ "client" →
      alookup (build_network_graph rs).node_info ip = none →
      graph_node_attrs (build_network_graph rs) ip = none) := by
  constructor
  · intro rs ip i hip hcl h
    have hmem : ip ∈ nodeFinset (build_network_graph rs) :=
      node_mem_of_ni rs ip hip (by rw [h]; rfl)
    have htype : i.type = classify_node ip i.hostname := by
      have h2 := h
      rw [ni_build rs ip hip] at h2
      rcases hf : firstHost (hopsAll rs) ip with _ | hn
      · rw [hf] at h2; simp at h2
      · rw [hf] at h2
        obtain rfl : i = ⟨hn, classify_node ip hn, collectRtts (hopsAll rs) ip⟩ :=
          (Option.some.inj h2).symm
        rfl
    constructor
    · simp only [graph_node_attrs, if_pos hmem, if_neg hcl, h]
      rw [htype]
    · exact htype
  · intro rs ip hcl h
    by_cases hm : ip ∈ nodeFinset (build_network_graph rs) <;>
      simp [graph_node_attrs, hm, hcl, h]

/-- C4 witness. -/
theorem C4_witness :
    (graph_node_attrs (build_network_graph
        [⟨"a", "server", none, [⟨1, "gw", "10.0.0.1", none⟩]⟩]) "10.0.0.1" =
      some (classify_node "10.0.0.1" "gw", "gw", meanQ []) ∧
      ("gateway" : String) = classify_node "10.0.0.1" "gw") ∧
    graph_node_attrs (build_network_graph
        [⟨"a", "server", none, [⟨1, "gw", "10.0.0.1", none⟩]⟩]) "99.99.99.99" = none :=
  ⟨C4_roles_from_recorded_hostname.1 [⟨"a", "server", none, [⟨1, "gw", "10.0.0.1", none⟩]⟩]
      "10.0.0.1" ⟨"gw", "gateway", []⟩ (by decide) (by decide) (by decide),
   C4_roles_from_recorded_hostname.2 [⟨"a", "server", none, [⟨1, "gw", "10.0.0.1", none⟩]⟩]
      "99.99.99.99" (by decide) (by decide)⟩

/-! ### Claim C7 -/

/-- C7: for every node created from hop records (i.e. recorded in node_info),
its stored RTT list is exactly the list of all non-absent RTT observations at
that IP across all runs and hop positions, in order, and its finalized avg_rtt
is their arithmetic mean, or 0 when the collection is empty. -/
theorem C7_avg_rtt_is_mean (rs : List TraceResult) (ip : String) (i : NodeInfo)
    (hip : ip ≠ "timeout") (hcl : ip ≠ "client")
    (h : alookup (build_network_graph rs).node_info ip = some i) :
    i.rtts = collectRtts (hopsAll rs) ip ∧
    graph_node_attrs (build_network_graph rs) ip =
      some (i.type, i.hostname,
        if collectRtts (hopsAll rs) ip = [] then 0
        else (collectRtts (hopsAll rs) ip).sum / ((collectRtts (hopsAll rs) ip).length : ℚ)) := by
  have hmem : ip ∈ nodeFinset (build_network_graph rs) :=
    node_mem_of_ni rs ip hip (by rw [h]; rfl)
  have hrtts : i.rtts = collectRtts (hopsAll rs) ip := by
    have h2 := h
    rw [ni_build rs ip hip] at h2
    rcases hf : firstHost (hopsAll rs) ip with _ | hn
    · rw [hf] at h2; simp at h2
    · rw [hf] at h2
      obtain rfl : i = ⟨hn, classify_node ip hn, collectRtts (hopsAll rs) ip⟩ :=
        (Option.some.inj h2).symm
      rfl
  refine ⟨hrtts, ?_⟩
  simp only [graph_node_attrs, if_pos hmem, if_neg hcl, h]
  rw [show meanQ i.rtts =
    (if collectRtts (hopsAll rs) ip = [] then 0
     else (collectRtts (hopsAll rs) ip).sum / ((collectRtts (hopsAll rs) ip).length : ℚ))
    from by rw [meanQ, hrtts]]

/-- C7 witness. -/
theorem C7_witness :
    (⟨"h", "wan", [1]⟩ : NodeInfo).rtts =
      collectRtts (hopsAll [⟨"a", "server", none, [⟨1, "h", "8.8.8.8", some 1⟩]⟩]) "8.8.8.8" ∧
    graph_node_attrs (build_network_graph
        [⟨"a", "server", none, [⟨1, "h", "8.8.8.8", some 1⟩]⟩]) "8.8.8.8" =
      some ("wan", "h",
        if collectRtts (hopsAll [⟨"a", "server", none, [⟨1, "h", "8.8.8.8", some 1⟩]⟩])
            "8.8.8.8" = [] then 0
        else (collectRtts (hopsAll [⟨"a", "server", none, [⟨1, "h", "8.8.8.8", some 1⟩]⟩])
            "8.8.8.8").sum /
          ((collectRtts (hopsAll [⟨"a", "server", none, [⟨1, "h", "8.8.8.8", some 1⟩]⟩])
            "8.8.8.8").length : ℚ)) :=
  C7_avg_rtt_is_mean [⟨"a", "server", none, [⟨1, "h", "8.8.8.8", some 1⟩]⟩] "8.8.8.8"
    ⟨"h", "wan", [1]⟩ (by decide) (by decide) (by decide)

/-! ### Claim C8 -/

/-- C8 counterexample: a line matching the reply-hop pattern whose RTT token is
1.2.3 makes Python's float() raise ValueError, so the parser aborts on this
input (modelled as none) instead of never raising. -/
theorem C8_counterexample :
    parse_traceroute_file
      ["traceroute to 8.8.8.8 (8.8.8.8), 30 hops max",
       " 1  router1 (1.2.3.4)  1.2.3 ms"] = none := by decide

theorem processLines_cons (l : String) (rest : List String) :
    processLines (l :: rest) =
      match hopOfLine l, processLines rest with
      | some (some h), some hs => some (h :: hs)
      | some none, some hs => some hs
      | _, _ => none := rfl

theorem parse_traceroute_file_cons (first : String) (rest : List String) :
    parse_traceroute_file (first :: rest) =
      match processLines rest with
      | some hops => some ⟨(searchTargetAux first.toList).map String.mk, hops⟩
      | none => none := rfl

theorem processLines_isSome (ls : List String)
    (h : ∀ l ∈ ls, ∀ n hn ip rtt, matchReplyLine l = some (n, hn, ip, rtt) →
      (parseFloat rtt).isSome) :
    (processLines ls).isSome := by
  induction ls with
  | nil => rfl
  | cons l t ih =>
    have hl : (hopOfLine l).isSome := by
      unfold hopOfLine
      rcases hr : matchReplyLine l with _ | ⟨n, hn, ip, rtt⟩
      · cases matchTimeoutLine l <;> rfl
      · have := h l (List.mem_cons_self l t) n hn ip rtt hr
        show (match parseFloat rtt with
              | some q => some (some (Hop.mk n hn ip (some q)))
              | none => none).isSome = true
        rcases hp : parseFloat rtt with _ | q
        · rw [hp] at this; simp at this
        · rfl
    have ht := ih (fun l' hl' => h l' (List.mem_cons_of_mem l hl'))
    rcases h1 : hopOfLine l with _ | o
    · rw [h1] at hl; simp at hl
    · rcases h2 : processLines t with _ | hs
      · rw [h2] at ht; simp at ht
      · show (processLines (l :: t)).isSome
        rw [processLines_cons, h1, h2]
        cases o <;> rfl

/-- C8 amended: a line matching neither the reply pattern nor the timeout
pattern is dropped with no hop record and no effect on the parse; the parser
never raises as long as every reply-matching line carries an RTT token that is
a valid float literal; a completely empty artifact yields target absent and an
empty hops sequence.  (Without the RTT proviso the parser CAN raise, per the
counterexample.) -/
theorem C8_malformed_lines_dropped :
    (∀ (l : String) (xs ys : List String),
      matchReplyLine l = none → matchTimeoutLine l = none →
      processLines (xs ++ l :: ys) = processLines (xs ++ ys)) ∧
    (∀ lines : List String,
      (∀ l ∈ lines.drop 1, ∀ n hn ip rtt, matchReplyLine l = some (n, hn, ip, rtt) →
        (parseFloat rtt).isSome) →
      (parse_traceroute_file lines).isSome) ∧
    parse_traceroute_file [] = some ⟨none, []⟩ := by
  refine ⟨?_, ?_, rfl⟩
  · intro l xs ys h1 h2
    have hl : hopOfLine l = some none := by
      unfold hopOfLine
      rw [h1, h2]
    induction xs with
    | nil =>
      show processLines (l :: ys) = processLines ys
      rw [processLines_cons, hl]
      rcases hys : processLines ys with _ | hs <;> rfl
    | cons x t ih =>
      show processLines (x :: (t ++ l :: ys)) = processLines (x :: (t ++ ys))
      rw [processLines_cons, processLines_cons, ih]
  · intro lines h
    cases lines with
    | nil => rfl
    | cons first rest =>
      have hs := processLines_isSome rest (by simpa using h)
      rcases h2 : processLines rest with _ | hops
      · rw [h2] at hs; simp at hs
      · show (parse_traceroute_file (first :: rest)).isSome
        rw [parse_traceroute_file_cons, h2]
        rfl

/-- C8 witness. -/
theorem C8_witness :
    processLines ["complete garbage"] = processLines [] ∧
    (parse_traceroute_file
      ["traceroute to 8.8.8.8 (8.8.8.8)", " 1  h (1.2.3.4)  1.5 ms"]).isSome ∧
    parse_traceroute_file [] = some ⟨none, []⟩ :=
  ⟨C8_malformed_lines_dropped.1 "complete garbage" [] [] (by decide) (by decide),
   C8_malformed_lines_dropped.2.1 ["traceroute to 8.8.8.8 (8.8.8.8)", " 1  h (1.2.3.4)  1.5 ms"]
     (by
       intro l hl n hn ip rtt heq
       have hl2 : l = " 1  h (1.2.3.4)  1.5 ms" := by
         simpa using hl
       subst hl2
       rw [(by decide : matchReplyLine " 1  h (1.2.3.4)  1.5 ms" =
         some (1, "h", "1.2.3.4", ['1', '.', '5']))] at heq
       cases heq
       decide),
   C8_malformed_lines_dropped.2.2⟩

/-! ### Claim C9 -/

/-- C9 counterexample: the role attribute of a node can differ between fold
orders (because it derives from the order-dependent first-seen hostname):
folding the viasat-named sighting first classifies 8.8.8.8 as satellite,
folding it second classifies it as wan — so hostname and traversal order are
NOT the only order-dependent outputs. -/
theorem C9_counterexample :
    (graph_node_attrs (build_network_graph
      [⟨"a1", "server", none, [⟨1, "viasat-node", "8.8.8.8", none⟩]⟩,
       ⟨"a2", "server", none, [⟨1, "plain-node", "8.8.8.8", none⟩]⟩]) "8.8.8.8").map
        (fun a => a.1) = some "satellite" ∧
    (graph_node_attrs (build_network_graph
      [⟨"a2", "server", none, [⟨1, "plain-node", "8.8.8.8", none⟩]⟩,
       ⟨"a1", "server", none, [⟨1, "viasat-node", "8.8.8.8", none⟩]⟩]) "8.8.8.8").map
        (fun a => a.1) = some "wan" := by
  refine ⟨by decide, by decide⟩

/-- C9 amended: the node set and the edge set of the built graph are invariant
under permutation of the fold order; what may differ between orders is each
node's hostname (first-write-wins), the role derived from that hostname, and
the internal order of traversal and RTT lists. -/
theorem C9_sets_order_invariant (rs1 rs2 : List TraceResult) (p : rs1.Perm rs2) :
    edgeKeys (build_network_graph rs1) = edgeKeys (build_network_graph rs2) ∧
    nodeFinset (build_network_graph rs1) = nodeFinset (build_network_graph rs2) := by
  have he : edgeKeys (build_network_graph rs1) = edgeKeys (build_network_graph rs2) := by
    rw [edgeKeys_build, edgeKeys_build]
    exact edgeUnion_perm p
  exact ⟨he, by rw [nodeFinset_eq_image, nodeFinset_eq_image, he]⟩

/-- C9 witness. -/
theorem C9_witness :
    edgeKeys (build_network_graph
      [⟨"a1", "server", none, [⟨1, "x", "1.1.1.1", none⟩]⟩,
       ⟨"a2", "wan", none, [⟨1, "y", "2.2.2.2", none⟩]⟩]) =
    edgeKeys (build_network_graph
      [⟨"a2", "wan", none, [⟨1, "y", "2.2.2.2", none⟩]⟩,
       ⟨"a1", "server", none, [⟨1, "x", "1.1.1.1", none⟩]⟩]) ∧
    nodeFinset (build_network_graph
      [⟨"a1", "server", none, [⟨1, "x", "1.1.1.1", none⟩]⟩,
       ⟨"a2", "wan", none, [⟨1, "y", "2.2.2.2", none⟩]⟩]) =
    nodeFinset (build_network_graph
      [⟨"a2", "wan", none, [⟨1, "y", "2.2.2.2", none⟩]⟩,
       ⟨"a1", "server", none, [⟨1, "x", "1.1.1.1", none⟩]⟩]) :=
  C9_sets_order_invariant _ _ (by decide)

/-! ### Claim C10 -/

/-- C10: when a run has a truthy target equal to the IP of its last non-timeout
hop, the synthetic reached-target edge is the self-loop (target, target) and
the traversal entry it appends carries hop number len(hops)+1 and no RTT. -/
theorem C10_synthetic_selfloop (st : BuildState) (r : TraceResult) (t : String)
    (htgt : r.target = some t) (hne : t ≠ "") (hlast : lastValidIp r.hops = some t) :
    ∃ ts, alookup (foldResult st r).edges (t, t) = some ts ∧
      ts.getLast? = some ⟨r.artifact, r.target_type, r.hops.length + 1, none⟩ := by
  have hcur : (foldHops r st "client" r.hops).2 = t := by
    rw [foldHops_cursor]
    exact cursorAfter_of_lastValid _ hlast
  have hhops : r.hops ≠ [] := by
    intro h0
    rw [h0] at hlast
    simp [lastValidIp] at hlast
  have hfr : foldResult st r =
      ⟨appendTrav (foldHops r st "client" r.hops).1.edges
        ((foldHops r st "client" r.hops).2, t)
        ⟨r.artifact, r.target_type, r.hops.length + 1, none⟩,
       (foldHops r st "client" r.hops).1.node_info⟩ := by
    unfold foldResult
    rw [htgt]
    simp only [if_pos (And.intro hhops hne)]
  rw [hfr, hcur]
  refine ⟨_, alookup_appendTrav_self _ _ _, getLast?_append_singleton _ _⟩

/-- C10 witness. -/
theorem C10_witness :
    ∃ ts, alookup (foldResult ⟨[], []⟩
        ⟨"a", "server", some "1.2.3.4", [⟨1, "h", "1.2.3.4", some 1⟩]⟩).edges
        ("1.2.3.4", "1.2.3.4") = some ts ∧
      ts.getLast? = some ⟨"a", "server", 2, none⟩ :=
  C10_synthetic_selfloop ⟨[], []⟩ ⟨"a", "server", some "1.2.3.4", [⟨1, "h", "1.2.3.4", some 1⟩]⟩
    "1.2.3.4" rfl (by decide) (by decide)

/-! ### Claim C5 -/

theorem trans_endpoints : ∀ (hops : List Hop) (c : String),
    (∀ h ∈ hops, h.ip ≠ "timeout") → hops ≠ [] →
    (transIps c hops).toFinset.image Prod.fst ∪ (transIps c hops).toFinset.image Prod.snd
      = insert c (hops.map (fun h => h.ip)).toFinset := by
  intro hops
  induction hops with
  | nil => intro c _ hne; cases hne rfl
  | cons hp rest ih =>
    intro c hv _
    have htp : hp.ip ≠ "timeout" := hv hp (List.mem_cons_self hp rest)
    by_cases hr : rest = []
    · subst hr
      simp [transIps, htp, Finset.insert_eq]
    · have hv' := fun h hm => hv h (List.mem_cons_of_mem hp hm)
      have ih' := ih hp.ip hv' hr
      simp only [transIps, if_neg htp, List.toFinset_cons, Finset.image_insert, List.map_cons]
      rw [Finset.insert_union, Finset.union_insert, ih']
      simp [Finset.insert_idem]

theorem trans_src_mem : ∀ (hops : List Hop) (c : String) (p : String × String),
    p ∈ transIps c hops → p.1 = c ∨ p.1 ∈ hops.map (fun h => h.ip) := by
  intro hops
  induction hops with
  | nil => intro c p hm; simp [transIps] at hm
  | cons hp rest ih =>
    intro c p hm
    by_cases htp : hp.ip = "timeout"
    · rcases ih c p (by simpa [transIps, htp] using hm) with h | h
      · exact Or.inl h
      · exact Or.inr (by simp only [List.map_cons]; exact List.mem_cons_of_mem _ h)
    · rw [transIps, if_neg htp] at hm
      rcases List.mem_cons.1 hm with rfl | hm'
      · exact Or.inl rfl
      · rcases ih hp.ip p hm' with h | h
        · exact Or.inr (by simp only [List.map_cons]; rw [h]; exact List.mem_cons_self _ _)
        · exact Or.inr (by simp only [List.map_cons]; exact List.mem_cons_of_mem _ h)

theorem trans_filter_client (hp : Hop) (rest : List Hop) (c : String)
    (hv : ∀ h ∈ hp :: rest, h.ip ≠ "timeout")
    (hc : c ∉ (hp :: rest).map (fun h => h.ip)) :
    (transIps c (hp :: rest)).toFinset.filter (fun k => k.1 = c) = {(c, hp.ip)} := by
  have htp : hp.ip ≠ "timeout" := hv hp (List.mem_cons_self hp rest)
  have hrest : ∀ k ∈ (transIps hp.ip rest).toFinset, ¬ k.1 = c := by
    intro k hk he
    apply hc
    rw [← he]
    rcases trans_src_mem rest hp.ip k (List.mem_toFinset.1 hk) with h | h
    · rw [h]
      simp only [List.map_cons]
      exact List.mem_cons_self _ _
    · simp only [List.map_cons]
      exact List.mem_cons_of_mem _ h
  simp only [transIps, if_neg htp, List.toFinset_cons]
  rw [Finset.filter_insert, if_pos rfl, Finset.filter_eq_empty_iff.2 hrest]
  rfl

/-- Set of non-origin node names contributed by one run, with the origin
erased. -/
theorem erase_endpoints (hops : List Hop) (hv : ∀ h ∈ hops, h.ip ≠ "timeout")
    (hcl : "client" ∉ hops.map (fun h => h.ip)) :
    ((transIps "client" hops).toFinset.image Prod.fst ∪
      (transIps "client" hops).toFinset.image Prod.snd).erase "client"
      = (hops.map (fun h => h.ip)).toFinset := by
  by_cases hne : hops = []
  · subst hne
    simp [transIps]
  · rw [trans_endpoints hops "client" hv hne,
      Finset.erase_insert (by simpa using hcl)]

/-- C5 counterexample: two runs that are disjoint in hop IPs but where (a) the
first run is all timeouts with a declared target, and (b) a pair of runs whose
first member repeats one IP under two different hostnames, both violate the
claimed node count, and case (a) also violates the claimed origin out-degree:
the synthetic target edge gives the origin out-degree 1 although no run has a
non-timeout first hop. -/
theorem C5_counterexample :
    nonOriginCount (build_network_graph
      [⟨"t1", "server", some "9.9.9.9",
        [⟨1, "timeout", "timeout", none⟩, ⟨2, "timeout", "timeout", none⟩]⟩,
       ⟨"t2", "server", none, []⟩]) = 1 ∧ (1 : Nat) ≠ 2 + 0 ∧
    outDeg (build_network_graph
      [⟨"t1", "server", some "9.9.9.9",
        [⟨1, "timeout", "timeout", none⟩, ⟨2, "timeout", "timeout", none⟩]⟩,
       ⟨"t2", "server", none, []⟩]) "client" = 1 ∧ (1 : Nat) ≠ 0 ∧
    nonOriginCount (build_network_graph
      [⟨"d1", "server", none,
        [⟨1, "host-a", "7.7.7.7", some 1⟩, ⟨2, "host-b", "7.7.7.7", some 2⟩]⟩,
       ⟨"d2", "server", none, []⟩]) = 1 ∧ (1 : Nat) ≠ 2 + 0 := by
  refine ⟨by decide, by decide, by decide, by decide, by decide, by decide⟩

/-- C5 amended: for two runs with absent targets whose hops are all
non-timeout, with pairwise-distinct IPs inside each run, disjoint IPs across
the runs, and no hop usurping the reserved origin key, folding into the empty
graph yields exactly len(r1.hops)+len(r2.hops) non-origin nodes, and the
origin out-degree equals the number of runs with a non-empty hop sequence.
(Timeout hops, duplicate IPs within a run — even under distinct hostnames —
and declared targets all break the original count, per the counterexample.) -/
theorem C5_disjoint_runs_counts (r1 r2 : TraceResult)
    (ht1 : r1.target = none) (ht2 : r2.target = none)
    (hv1 : ∀ h ∈ r1.hops, h.ip ≠ "timeout") (hv2 : ∀ h ∈ r2.hops, h.ip ≠ "timeout")
    (hn1 : (r1.hops.map (fun h => h.ip)).Nodup) (hn2 : (r2.hops.map (fun h => h.ip)).Nodup)
    (hdis : ∀ x ∈ r1.hops.map (fun h => h.ip), x ∉ r2.hops.map (fun h => h.ip))
    (hc1 : "client" ∉ r1.hops.map (fun h => h.ip))
    (hc2 : "client" ∉ r2.hops.map (fun h => h.ip)) :
    nonOriginCount (build_network_graph [r1, r2]) = r1.hops.length + r2.hops.length ∧
    outDeg (build_network_graph [r1, r2]) "client" =
      (if r1.hops = [] then 0 else 1) + (if r2.hops = [] then 0 else 1) := by
  have hE : edgeKeys (build_network_graph [r1, r2]) =
      (transIps "client" r1.hops).toFinset ∪ (transIps "client" r2.hops).toFinset := by
    rw [edgeKeys_build]
    simp [edgeUnion, contrib, ht1, ht2]
  constructor
  · have hN : nodeFinset (build_network_graph [r1, r2]) =
        ((transIps "client" r1.hops).toFinset.image Prod.fst ∪
          (transIps "client" r1.hops).toFinset.image Prod.snd) ∪
        ((transIps "client" r2.hops).toFinset.image Prod.fst ∪
          (transIps "client" r2.hops).toFinset.image Prod.snd) := by
      rw [nodeFinset_eq_image, hE, Finset.image_union, Finset.image_union]
      simp only [Finset.union_assoc, Finset.union_left_comm]
    rw [nonOriginCount, hN, Finset.erase_union_distrib,
      erase_endpoints r1.hops hv1 hc1, erase_endpoints r2.hops hv2 hc2]
    have hdisj : Disjoint (r1.hops.map (fun h => h.ip)).toFinset
        (r2.hops.map (fun h => h.ip)).toFinset := by
      rw [Finset.disjoint_left]
      intro a ha hb
      exact hdis a (List.mem_toFinset.1 ha) (List.mem_toFinset.1 hb)
    rw [Finset.card_union_of_disjoint hdisj,
      List.toFinset_card_of_nodup hn1, List.toFinset_card_of_nodup hn2,
      List.length_map, List.length_map]
  · rw [outDeg, hE, Finset.filter_union]
    rcases hr1 : r1.hops with _ | ⟨hp1, rest1⟩
    · rcases hr2 : r2.hops with _ | ⟨hp2, rest2⟩
      · simp [transIps]
      · rw [hr2] at hv2 hc2
        rw [trans_filter_client hp2 rest2 "client" hv2 hc2]
        simp [transIps]
    · rw [hr1] at hv1 hc1
      rw [trans_filter_client hp1 rest1 "client" hv1 hc1]
      rcases hr2 : r2.hops with _ | ⟨hp2, rest2⟩
      · simp [transIps]
      · rw [hr2] at hv2 hc2
        rw [trans_filter_client hp2 rest2 "client" hv2 hc2]
        have hne : hp1.ip ≠ hp2.ip := by
          intro he
          refine hdis hp1.ip ?_ ?_
          · rw [hr1]; simp
          · rw [hr2, he]; simp
        rw [Finset.card_union_of_disjoint (by simp [hne.symm])]
        simp

/-- C5 witness. -/
theorem C5_witness :
    nonOriginCount (build_network_graph
      [⟨"w1", "server", none, [⟨1, "x", "1.1.1.1", some 1⟩, ⟨2, "y", "2.2.2.2", some 2⟩]⟩,
       ⟨"w2", "wan", none, [⟨1, "z", "3.3.3.3", some 3⟩]⟩]) =
      ([⟨1, "x", "1.1.1.1", some 1⟩, ⟨2, "y", "2.2.2.2", some 2⟩] : List Hop).length +
      ([⟨1, "z", "3.3.3.3", some 3⟩] : List Hop).length ∧
    outDeg (build_network_graph
      [⟨"w1", "server", none, [⟨1, "x", "1.1.1.1", some 1⟩, ⟨2, "y", "2.2.2.2", some 2⟩]⟩,
       ⟨"w2", "wan", none, [⟨1, "z", "3.3.3.3", some 3⟩]⟩]) "client" =
      (if ([⟨1, "x", "1.1.1.1", some 1⟩, ⟨2, "y", "2.2.2.2", some 2⟩] : List Hop) = []
       then 0 else 1) +
      (if ([⟨1, "z", "3.3.3.3", some 3⟩] : List Hop) = [] then 0 else 1) :=
  C5_disjoint_runs_counts
    ⟨"w1", "server", none, [⟨1, "x", "1.1.1.1", some 1⟩, ⟨2, "y", "2.2.2.2", some 2⟩]⟩
    ⟨"w2", "wan", none, [⟨1, "z", "3.3.3.3", some 3⟩]⟩
    rfl rfl (by decide) (by decide) (by decide) (by decide) (by decide) (by decide) (by decide)

end Traceroute
